import Mathlib

/-!
Verification of the texture-atlas builder `res/extract_textures.py`.

The script builds a fixed-size RGBA texture atlas from a static name → slot
table.  We embed its data model and its main loop as pure Lean functions:

* an image is a width, a height and a total pixel function;
* the filesystem is a structure giving, for each path, whether a file exists
  and (if so) its decoded image;
* the PIL `resize(..., LANCZOS)` kernel is abstracted as a parameter
  (a deterministic function computing each output pixel from the source
  image and the target dimensions); the PIL guarantee that the result has
  exactly the requested dimensions is kept;
* `Image.paste` without a mask overwrites the destination region with the
  source pixels (alpha included, no blending) and leaves everything else,
  dimensions included, unchanged;
* the `for name, index in TEXTURE_MAP.items()` loop is a left fold over the
  table (Python dictionaries iterate in insertion order), threading the
  atlas image and the list of printed diagnostic lines.
-/

/-- One RGBA pixel, channels as natural numbers (0..255 in practice). -/
structure RGBA where
  r : Nat
  g : Nat
  b : Nat
  a : Nat
deriving DecidableEq, Repr

/-- The fully transparent pixel `(0, 0, 0, 0)`. -/
def transparentPx : RGBA := ⟨0, 0, 0, 0⟩

/-- A decoded RGBA image: dimensions plus a total pixel function. -/
structure Img where
  width : Nat
  height : Nat
  px : Nat → Nat → RGBA

/-- `TILES_DIR` from the script (a hardcoded absolute directory). -/
def TILES_DIR : String := "C:\\Users\\natha\\dev\\CPP\\GPUProgramming\\Renderer\\res\\kenney_voxel-pack\\PNG\\Tiles"

/-- `TEXTURE_SIZE = 16`: each tile is resized to 16 × 16. -/
def TEXTURE_SIZE : Nat := 16

/-- `ATLAS_SIZE = 256`: the atlas is 256 × 256. -/
def ATLAS_SIZE : Nat := 256

/-- `TEXTURE_MAP`: the compiled-in slot table, in the insertion order of the
Python dictionary (name, atlas index). -/
def TEXTURE_MAP : List (String × Nat) :=
  [("air", 0), ("greystone", 1), ("dirt", 2), ("grass_top", 3), ("dirt_grass", 4),
   ("sand", 5), ("water", 6), ("trunk_top", 7), ("trunk_side", 8), ("leaves", 9),
   ("glass", 10), ("stone", 11), ("wood", 12), ("rock", 13), ("gravel_stone", 14),
   ("brick_red", 15), ("snow", 16), ("ice", 17)]

/-- `textures_per_row = ATLAS_SIZE // TEXTURE_SIZE` (integer division). -/
def textures_per_row : Nat := ATLAS_SIZE / TEXTURE_SIZE

/-- The filesystem as seen by the script: existence of a path, and the decoded
RGBA image stored there (`Image.open(path).convert('RGBA')`); `read` is only
ever consulted on paths whose `fileExists` is `true`. -/
structure FS where
  fileExists : String → Bool
  read : String → Img

/-- A resampling kernel: given the source image and the target width and
height, produce each output pixel.  This abstracts PIL's `LANCZOS` filter;
the builder's placement logic is independent of the kernel's pixel values. -/
def Resample : Type := Img → Nat → Nat → Nat → Nat → RGBA

/-- `img.resize((w, h), kernel)`: PIL returns an image of exactly the
requested dimensions whose pixels are computed by the resampling kernel. -/
def resize (rs : Resample) (img : Img) (w h : Nat) : Img :=
  { width := w, height := h, px := fun x y => rs img w h x y }

/-- `dst.paste(src, (ox, oy))`: overwrite the `src.width × src.height` region
at offset `(ox, oy)` with the source pixels (alpha replaces, no blending);
all other pixels and the destination dimensions are unchanged. -/
def paste (dst src : Img) (ox oy : Nat) : Img :=
  { width := dst.width, height := dst.height,
    px := fun x y =>
      if ox ≤ x ∧ x < ox + src.width ∧ oy ≤ y ∧ y < oy + src.height then
        src.px (x - ox) (y - oy)
      else dst.px x y }

/-- `Image.new('RGBA', (ATLAS_SIZE, ATLAS_SIZE), (0, 0, 0, 0))`: the blank
output canvas, every pixel fully transparent. -/
def blankAtlas : Img :=
  { width := ATLAS_SIZE, height := ATLAS_SIZE, px := fun _ _ => transparentPx }

/-- `os.path.join(TILES_DIR, name + ".png")` (Windows separator, as in the
script's hardcoded path). -/
def tilePath (name : String) : String := TILES_DIR ++ "\\" ++ name ++ ".png"

/-- The destination cell of a slot index:
`row, col = index // textures_per_row, index % textures_per_row`. -/
def cellOf (index : Nat) : Nat × Nat :=
  (index / textures_per_row, index % textures_per_row)

/-- The state threaded through the loop: the atlas under construction and the
diagnostic lines printed so far. -/
structure BuildState where
  atlas : Img
  log : List String

/-- One iteration of the `for name, index in TEXTURE_MAP.items()` loop:
skip `'air'`; report a missing file and continue; otherwise decode, convert,
resize, compute the cell, paste, and report. -/
def processEntry (fs : FS) (rs : Resample) (st : BuildState) (e : String × Nat) : BuildState :=
  let name := e.1
  let index := e.2
  if name = "air" then st
  else
    let path := tilePath name
    if fs.fileExists path = false then
      { st with log := st.log ++ ["Missing: " ++ name] }
    else
      let texture := resize rs (fs.read path) TEXTURE_SIZE TEXTURE_SIZE
      let row := (cellOf index).1
      let col := (cellOf index).2
      { atlas := paste st.atlas texture (col * TEXTURE_SIZE) (row * TEXTURE_SIZE),
        log := st.log ++ ["Added " ++ name ++ " at index " ++ toString index] }

/-- Run the loop over an arbitrary slot table, starting from the freshly
allocated blank canvas and an empty log. -/
def buildTable (fs : FS) (rs : Resample) (table : List (String × Nat)) : BuildState :=
  table.foldl (processEntry fs rs) ⟨blankAtlas, []⟩

/-- The atlas-only effect of one loop iteration (the atlas component of
`processEntry` does not depend on the log). -/
def atlasStep (fs : FS) (rs : Resample) (a : Img) (e : String × Nat) : Img :=
  if e.1 = "air" then a
  else if fs.fileExists (tilePath e.1) = false then a
  else
    paste a (resize rs (fs.read (tilePath e.1)) TEXTURE_SIZE TEXTURE_SIZE)
      ((cellOf e.2).2 * TEXTURE_SIZE) ((cellOf e.2).1 * TEXTURE_SIZE)

/-- The result of one full run of the script: the final atlas, the full
console transcript, and the name of the written output file. -/
structure RunResult where
  atlas : Img
  log : List String
  savedAs : String

/-- The whole `__main__` block: build over `TEXTURE_MAP`, save the atlas as
`kenney_voxel_atlas.png`, print the summary line. -/
def runScript (fs : FS) (rs : Resample) : RunResult :=
  let st := buildTable fs rs TEXTURE_MAP
  { atlas := st.atlas,
    log := st.log ++
      ["\nAtlas saved: kenney_voxel_atlas.png (" ++ toString ATLAS_SIZE ++ "x" ++
        toString ATLAS_SIZE ++ ")"],
    savedAs := "kenney_voxel_atlas.png" }

/-- A pixel `(x, y)` lies in the 16 × 16 cell of slot `index`. -/
def pixelInCell (index x y : Nat) : Prop :=
  (cellOf index).2 * TEXTURE_SIZE ≤ x ∧ x < (cellOf index).2 * TEXTURE_SIZE + TEXTURE_SIZE ∧
  (cellOf index).1 * TEXTURE_SIZE ≤ y ∧ y < (cellOf index).1 * TEXTURE_SIZE + TEXTURE_SIZE

instance (index x y : Nat) : Decidable (pixelInCell index x y) := by
  unfold pixelInCell; infer_instance

/-- The slot-table invariant: indices are pairwise distinct and lie within
`[0, (ATLAS_SIZE / TEXTURE_SIZE)^2)`. -/
def tableInvariant (table : List (String × Nat)) : Prop :=
  (table.map Prod.snd).Nodup ∧ ∀ e ∈ table, e.2 < textures_per_row * textures_per_row

/-! ### Helper lemmas -/

/-- The atlas component of one loop iteration depends only on the atlas. -/
lemma processEntry_atlas (fs : FS) (rs : Resample) (st : BuildState) (e : String × Nat) :
    (processEntry fs rs st e).atlas = atlasStep fs rs st.atlas e := by
  simp only [processEntry, atlasStep]
  split
  · rfl
  · split <;> rfl

/-- The atlas component of the whole run is the fold of `atlasStep`. -/
lemma buildTable_atlas (fs : FS) (rs : Resample) (table : List (String × Nat)) :
    (buildTable fs rs table).atlas = table.foldl (atlasStep fs rs) blankAtlas := by
  suffices h : ∀ st : BuildState,
      (table.foldl (processEntry fs rs) st).atlas = table.foldl (atlasStep fs rs) st.atlas by
    exact h ⟨blankAtlas, []⟩
  induction table with
  | nil => intro st; rfl
  | cons e rest ih =>
    intro st
    simp only [List.foldl_cons]
    rw [ih, processEntry_atlas]

/-- Distinct slot indices have disjoint cells: a pixel of one cell never lies
in the cell of a different index. -/
lemma cell_disjoint {i j dx dy : Nat} (hdx : dx < TEXTURE_SIZE) (hdy : dy < TEXTURE_SIZE)
    (hne : i ≠ j) :
    ¬ pixelInCell j ((cellOf i).2 * TEXTURE_SIZE + dx) ((cellOf i).1 * TEXTURE_SIZE + dy) := by
  simp only [pixelInCell, cellOf, textures_per_row, TEXTURE_SIZE, ATLAS_SIZE] at *
  omega

/-- One iteration leaves any pixel outside the entry's cell unchanged. -/
lemma atlasStep_px_of_notInCell (fs : FS) (rs : Resample) (a : Img) (e : String × Nat)
    (x y : Nat) (h : ¬ pixelInCell e.2 x y) :
    (atlasStep fs rs a e).px x y = a.px x y := by
  simp only [atlasStep]
  split
  · rfl
  · split
    · rfl
    · simp only [paste, resize]
      rw [if_neg]
      intro hc
      exact h hc

/-- Folding over entries none of which writes the pixel leaves it unchanged. -/
lemma foldl_atlasStep_px_frame (fs : FS) (rs : Resample) (table : List (String × Nat))
    (a0 : Img) (x y : Nat)
    (h : ∀ e ∈ table, ∀ a : Img, (atlasStep fs rs a e).px x y = a.px x y) :
    (table.foldl (atlasStep fs rs) a0).px x y = a0.px x y := by
  induction table generalizing a0 with
  | nil => rfl
  | cons e rest ih =>
    simp only [List.foldl_cons]
    rw [ih _ fun e' he' a => h e' (List.mem_cons_of_mem _ he') a]
    exact h e (List.mem_cons_self _ _) a0

/-- A successfully placed entry writes its resized tile into its cell. -/
lemma atlasStep_px_place (fs : FS) (rs : Resample) (a : Img) (name : String) (index : Nat)
    (hair : name ≠ "air") (hex : fs.fileExists (tilePath name) = true)
    (dx dy : Nat) (hdx : dx < TEXTURE_SIZE) (hdy : dy < TEXTURE_SIZE) :
    (atlasStep fs rs a (name, index)).px
        ((cellOf index).2 * TEXTURE_SIZE + dx) ((cellOf index).1 * TEXTURE_SIZE + dy) =
      rs (fs.read (tilePath name)) TEXTURE_SIZE TEXTURE_SIZE dx dy := by
  unfold atlasStep
  rw [if_neg hair, if_neg (by simp [hex])]
  simp only [paste, resize]
  rw [if_pos]
  · congr 1 <;> omega
  · refine ⟨Nat.le_add_right _ _, by omega, Nat.le_add_right _ _, by omega⟩

/-- The diagnostic lines one loop iteration prints. -/
def entryMsgs (fs : FS) (e : String × Nat) : List String :=
  if e.1 = "air" then []
  else if fs.fileExists (tilePath e.1) = false then ["Missing: " ++ e.1]
  else ["Added " ++ e.1 ++ " at index " ++ toString e.2]

/-- One loop iteration appends exactly its diagnostic lines to the log. -/
lemma processEntry_log (fs : FS) (rs : Resample) (st : BuildState) (e : String × Nat) :
    (processEntry fs rs st e).log = st.log ++ entryMsgs fs e := by
  simp only [processEntry, entryMsgs]
  split
  · simp
  · split <;> rfl

/-- The full log of a run is the concatenation of the per-entry diagnostics. -/
lemma buildTable_log (fs : FS) (rs : Resample) (table : List (String × Nat)) :
    (buildTable fs rs table).log = table.bind (entryMsgs fs) := by
  suffices h : ∀ st : BuildState,
      (table.foldl (processEntry fs rs) st).log = st.log ++ table.bind (entryMsgs fs) by
    simpa using h ⟨blankAtlas, []⟩
  induction table with
  | nil => intro st; simp
  | cons e rest ih =>
    intro st
    simp only [List.foldl_cons, List.cons_bind]
    rw [ih, processEntry_log, List.append_assoc]

/-- In a run over a table with pairwise-distinct indices, a non-sentinel entry
whose file exists ends up with its resized tile in its cell of the final
atlas. -/
lemma buildTable_px_place (fs : FS) (rs : Resample) (table : List (String × Nat))
    (name : String) (index : Nat)
    (hmem : (name, index) ∈ table) (hnodup : (table.map Prod.snd).Nodup)
    (hair : name ≠ "air") (hex : fs.fileExists (tilePath name) = true)
    (dx dy : Nat) (hdx : dx < TEXTURE_SIZE) (hdy : dy < TEXTURE_SIZE) :
    (buildTable fs rs table).atlas.px
        ((cellOf index).2 * TEXTURE_SIZE + dx) ((cellOf index).1 * TEXTURE_SIZE + dy) =
      rs (fs.read (tilePath name)) TEXTURE_SIZE TEXTURE_SIZE dx dy := by
  rw [buildTable_atlas]
  obtain ⟨s, t, rfl⟩ := List.append_of_mem hmem
  have hnodup' : (index :: t.map Prod.snd).Nodup := by
    have := hnodup
    rw [List.map_append, List.map_cons] at this
    exact this.of_append_right
  have hnot : ∀ e' ∈ t, e'.2 ≠ index := by
    intro e' he' hEq
    exact (List.nodup_cons.mp hnodup').1 (hEq ▸ List.mem_map_of_mem Prod.snd he')
  rw [List.foldl_append, List.foldl_cons]
  rw [foldl_atlasStep_px_frame]
  · exact atlasStep_px_place fs rs _ name index hair hex dx dy hdx hdy
  · intro e' he' a
    refine atlasStep_px_of_notInCell fs rs a e' _ _ ?_
    exact cell_disjoint hdx hdy fun h => hnot e' he' h.symm
/-- A pixel no entry of the table successfully writes stays fully
transparent through the whole run. -/
lemma buildTable_px_transparent (fs : FS) (rs : Resample) (table : List (String × Nat))
    (x y : Nat)
    (h : ∀ e ∈ table, e.1 ≠ "air" → fs.fileExists (tilePath e.1) = true →
      ¬ pixelInCell e.2 x y) :
    (buildTable fs rs table).atlas.px x y = transparentPx := by
  rw [buildTable_atlas, foldl_atlasStep_px_frame]
  · rfl
  · intro e he a
    by_cases hair : e.1 = "air"
    · simp [atlasStep, hair]
    · by_cases hex : fs.fileExists (tilePath e.1) = true
      · exact atlasStep_px_of_notInCell _ _ _ _ _ _ (h e he hair hex)
      · have hex' : fs.fileExists (tilePath e.1) = false := by
          revert hex; cases fs.fileExists (tilePath e.1) <;> simp
        simp [atlasStep, hair, hex']

/-- Two distinct slot indices never claim the same pixel. -/
lemma pixelInCell_inj {i j x y : Nat} (hi : pixelInCell i x y) (hj : pixelInCell j x y) :
    i = j := by
  simp only [pixelInCell, cellOf, textures_per_row, TEXTURE_SIZE, ATLAS_SIZE] at hi hj
  omega

/-- An `'air'` or missing-file iteration leaves the atlas untouched. -/
lemma atlasStep_of_skip (fs : FS) (rs : Resample) (e : String × Nat)
    (h : e.1 = "air" ∨ fs.fileExists (tilePath e.1) = false) (z : Img) :
    atlasStep fs rs z e = z := by
  unfold atlasStep
  rcases h with h | h
  · rw [if_pos h]
  · by_cases ha : e.1 = "air"
    · rw [if_pos ha]
    · rw [if_neg ha, if_pos h]

/-- A non-sentinel iteration whose file exists pastes the resized tile. -/
lemma atlasStep_of_place (fs : FS) (rs : Resample) (e : String × Nat)
    (ha : ¬ e.1 = "air") (hex : ¬ fs.fileExists (tilePath e.1) = false) (z : Img) :
    atlasStep fs rs z e =
      paste z (resize rs (fs.read (tilePath e.1)) TEXTURE_SIZE TEXTURE_SIZE)
        ((cellOf e.2).2 * TEXTURE_SIZE) ((cellOf e.2).1 * TEXTURE_SIZE) := by
  unfold atlasStep
  rw [if_neg ha, if_neg hex]

/-- Pasting `TEXTURE_SIZE`-square tiles into the cells of two different slot
indices commutes: the two regions are disjoint. -/
lemma paste_paste_comm (z s₁ s₂ : Img) (i j : Nat) (hne : i ≠ j)
    (h₁ : s₁.width = TEXTURE_SIZE) (h₂ : s₁.height = TEXTURE_SIZE)
    (h₃ : s₂.width = TEXTURE_SIZE) (h₄ : s₂.height = TEXTURE_SIZE) :
    paste (paste z s₁ ((cellOf i).2 * TEXTURE_SIZE) ((cellOf i).1 * TEXTURE_SIZE)) s₂
        ((cellOf j).2 * TEXTURE_SIZE) ((cellOf j).1 * TEXTURE_SIZE) =
      paste (paste z s₂ ((cellOf j).2 * TEXTURE_SIZE) ((cellOf j).1 * TEXTURE_SIZE)) s₁
        ((cellOf i).2 * TEXTURE_SIZE) ((cellOf i).1 * TEXTURE_SIZE) := by
  simp only [paste, h₁, h₂, h₃, h₄]
  congr 1
  funext x y
  by_cases hI : pixelInCell i x y <;> by_cases hJ : pixelInCell j x y
  · exact absurd (pixelInCell_inj hI hJ) hne
  all_goals
    simp only [pixelInCell] at hI hJ
    simp [hI, hJ]

/-- Loop iterations for entries with different slot indices commute on the
atlas. -/
lemma atlasStep_comm (fs : FS) (rs : Resample) (a b : String × Nat) (hne : a.2 ≠ b.2)
    (z : Img) :
    atlasStep fs rs (atlasStep fs rs z a) b = atlasStep fs rs (atlasStep fs rs z b) a := by
  by_cases ha : a.1 = "air" ∨ fs.fileExists (tilePath a.1) = false
  · rw [atlasStep_of_skip fs rs a ha, atlasStep_of_skip fs rs a ha]
  push_neg at ha
  by_cases hb : b.1 = "air" ∨ fs.fileExists (tilePath b.1) = false
  · rw [atlasStep_of_skip fs rs b hb, atlasStep_of_skip fs rs b hb]
  push_neg at hb
  rw [atlasStep_of_place fs rs a ha.1 ha.2, atlasStep_of_place fs rs b hb.1 hb.2,
    atlasStep_of_place fs rs a ha.1 ha.2, atlasStep_of_place fs rs b hb.1 hb.2]
  exact paste_paste_comm z _ _ a.2 b.2 hne rfl rfl rfl rfl

/-- One loop iteration never changes the canvas dimensions. -/
lemma atlasStep_width (fs : FS) (rs : Resample) (a : Img) (e : String × Nat) :
    (atlasStep fs rs a e).width = a.width := by
  unfold atlasStep
  split
  · rfl
  · split <;> rfl

/-- One loop iteration never changes the canvas dimensions. -/
lemma atlasStep_height (fs : FS) (rs : Resample) (a : Img) (e : String × Nat) :
    (atlasStep fs rs a e).height = a.height := by
  unfold atlasStep
  split
  · rfl
  · split <;> rfl

/-- The whole run keeps the canvas dimensions of the initial atlas. -/
lemma foldl_atlasStep_dims (fs : FS) (rs : Resample) (table : List (String × Nat))
    (a0 : Img) :
    (table.foldl (atlasStep fs rs) a0).width = a0.width ∧
    (table.foldl (atlasStep fs rs) a0).height = a0.height := by
  induction table generalizing a0 with
  | nil => exact ⟨rfl, rfl⟩
  | cons e rest ih =>
    simp only [List.foldl_cons]
    refine ⟨?_, ?_⟩
    · rw [(ih (atlasStep fs rs a0 e)).1, atlasStep_width]
    · rw [(ih (atlasStep fs rs a0 e)).2, atlasStep_height]

/-! ### Concrete test fixtures (used by the witness theorems) -/

/-- A filesystem on which every path exists, holding a 128 × 128 image. -/
def fsAll : FS :=
  { fileExists := fun _ => true,
    read := fun _ => ⟨128, 128, fun x y => ⟨x % 256, y % 256, 7, 255⟩⟩ }

/-- A filesystem on which no path exists. -/
def fsNone : FS :=
  { fileExists := fun _ => false,
    read := fun _ => ⟨0, 0, fun _ _ => transparentPx⟩ }

/-- A trivial deterministic resampling kernel (top-left sampling). -/
def rsTop : Resample := fun img _ _ x y => img.px x y

/-! ### Claim theorems -/

/-- C4: for every placed tile with slot index in `[0, textures_per_row^2)`,
the computed cell `(row, col) = (index // textures_per_row, index %
textures_per_row)` satisfies `row * textures_per_row + col = index`: the
integer division and modulo decomposition recovers the original index. -/
theorem claim_C4_cell_roundtrip (index : Nat)
    (h : index < textures_per_row * textures_per_row) :
    (cellOf index).1 * textures_per_row + (cellOf index).2 = index := by
  simp only [cellOf]
  rw [Nat.mul_comm]
  exact Nat.div_add_mod index textures_per_row

/-- Witness for C4 at index 37. -/
theorem claim_C4_cell_roundtrip_witness :
    37 < textures_per_row * textures_per_row ∧
    (cellOf 37).1 * textures_per_row + (cellOf 37).2 = 37 :=
  ⟨by decide, claim_C4_cell_roundtrip 37 (by decide)⟩

/-- C7: at the start of every run, before any tile is processed, the canvas
is allocated with dimensions exactly `ATLAS_SIZE × ATLAS_SIZE`, RGBA, every
pixel fully transparent `(0,0,0,0)`; a run over an empty table returns it
untouched. -/
theorem claim_C7_canvas_init (fs : FS) (rs : Resample) (x y : Nat) :
    blankAtlas.width = ATLAS_SIZE ∧ blankAtlas.height = ATLAS_SIZE ∧
    blankAtlas.px x y = transparentPx ∧ transparentPx = ⟨0, 0, 0, 0⟩ ∧
    (buildTable fs rs []).atlas = blankAtlas ∧ (buildTable fs rs []).log = [] :=
  ⟨rfl, rfl, rfl, rfl, rfl, rfl⟩

/-- C9: the compiled-in slot table `TEXTURE_MAP` satisfies the table
invariant: its indices are pairwise distinct and all lie within
`[0, (ATLAS_SIZE / TEXTURE_SIZE)^2) = [0, 256)`. -/
theorem claim_C9_texture_map_invariant :
    tableInvariant TEXTURE_MAP ∧ textures_per_row * textures_per_row = 256 := by
  refine ⟨⟨?_, ?_⟩, ?_⟩ <;> decide

/-- C10: the canvas keeps its `ATLAS_SIZE × ATLAS_SIZE` dimensions through
every paste, and for every index in `[0, textures_per_row^2)` the paste
region lies entirely within the canvas bounds, so no paste is clipped and
the final image is always `ATLAS_SIZE × ATLAS_SIZE`. -/
theorem claim_C10_dims_preserved (fs : FS) (rs : Resample)
    (table : List (String × Nat)) (st : BuildState) (e : String × Nat) (index : Nat)
    (h : index < textures_per_row * textures_per_row) :
    (processEntry fs rs st e).atlas.width = st.atlas.width ∧
    (processEntry fs rs st e).atlas.height = st.atlas.height ∧
    (cellOf index).2 * TEXTURE_SIZE + TEXTURE_SIZE ≤ ATLAS_SIZE ∧
    (cellOf index).1 * TEXTURE_SIZE + TEXTURE_SIZE ≤ ATLAS_SIZE ∧
    (buildTable fs rs table).atlas.width = ATLAS_SIZE ∧
    (buildTable fs rs table).atlas.height = ATLAS_SIZE := by
  have ht : textures_per_row = 16 := by decide
  rw [ht] at h
  refine ⟨?_, ?_, ?_, ?_, ?_, ?_⟩
  · rw [processEntry_atlas]; exact atlasStep_width fs rs st.atlas e
  · rw [processEntry_atlas]; exact atlasStep_height fs rs st.atlas e
  · simp only [cellOf, ht, TEXTURE_SIZE, ATLAS_SIZE]; omega
  · simp only [cellOf, ht, TEXTURE_SIZE, ATLAS_SIZE]; omega
  · rw [buildTable_atlas]; exact (foldl_atlasStep_dims fs rs table blankAtlas).1
  · rw [buildTable_atlas]; exact (foldl_atlasStep_dims fs rs table blankAtlas).2

/-- Witness for C10: a full run over the real table gives a 256 × 256 image,
and the bottom-right cell's paste region fits in the canvas. -/
theorem claim_C10_dims_preserved_witness :
    255 < textures_per_row * textures_per_row ∧
    (cellOf 255).2 * TEXTURE_SIZE + TEXTURE_SIZE ≤ ATLAS_SIZE ∧
    (buildTable fsAll rsTop TEXTURE_MAP).atlas.width = ATLAS_SIZE :=
  ⟨by decide,
   (claim_C10_dims_preserved fsAll rsTop TEXTURE_MAP ⟨blankAtlas, []⟩ ("dirt", 2) 255
      (by decide)).2.2.1,
   (claim_C10_dims_preserved fsAll rsTop TEXTURE_MAP ⟨blankAtlas, []⟩ ("dirt", 2) 255
      (by decide)).2.2.2.2.1⟩

/-- C1: for every non-sentinel slot-table entry whose source file exists, the
builder computes the destination cell as `row = index // textures_per_row`,
`col = index % textures_per_row`, resizes the tile to exactly
`TEXTURE_SIZE × TEXTURE_SIZE`, and pastes it at pixel offset
`(col * TEXTURE_SIZE, row * TEXTURE_SIZE)`: in any run over a table
satisfying the invariant, every pixel of that cell of the final atlas holds
the corresponding resized-tile pixel; index `0` maps to cell `(0, 0)` and
index `textures_per_row^2 - 1` to the bottom-right cell. -/
theorem claim_C1_tile_placement (fs : FS) (rs : Resample)
    (table : List (String × Nat)) (name : String) (index : Nat)
    (hmem : (name, index) ∈ table) (hinv : tableInvariant table)
    (hair : name ≠ "air") (hex : fs.fileExists (tilePath name) = true) :
    cellOf index = (index / textures_per_row, index % textures_per_row) ∧
    (resize rs (fs.read (tilePath name)) TEXTURE_SIZE TEXTURE_SIZE).width = TEXTURE_SIZE ∧
    (resize rs (fs.read (tilePath name)) TEXTURE_SIZE TEXTURE_SIZE).height = TEXTURE_SIZE ∧
    (∀ dx dy, dx < TEXTURE_SIZE → dy < TEXTURE_SIZE →
      (buildTable fs rs table).atlas.px
          ((cellOf index).2 * TEXTURE_SIZE + dx) ((cellOf index).1 * TEXTURE_SIZE + dy) =
        (resize rs (fs.read (tilePath name)) TEXTURE_SIZE TEXTURE_SIZE).px dx dy) ∧
    cellOf 0 = (0, 0) ∧
    cellOf (textures_per_row * textures_per_row - 1) =
      (textures_per_row - 1, textures_per_row - 1) := by
  refine ⟨rfl, rfl, rfl, ?_, by decide, by decide⟩
  intro dx dy hdx hdy
  exact buildTable_px_place fs rs table name index hmem hinv.1 hair hex dx dy hdx hdy

/-- Witness for C1: a one-entry table `{"dirt": 2}` on a filesystem where
every file exists; the pixel `(2*16+3, 0*16+5)` of the final atlas is the
resized tile's pixel `(3, 5)`. -/
theorem claim_C1_tile_placement_witness :
    (buildTable fsAll rsTop [("dirt", 2)]).atlas.px
        ((cellOf 2).2 * TEXTURE_SIZE + 3) ((cellOf 2).1 * TEXTURE_SIZE + 5) =
      (resize rsTop (fsAll.read (tilePath "dirt")) TEXTURE_SIZE TEXTURE_SIZE).px 3 5 :=
  (claim_C1_tile_placement fsAll rsTop [("dirt", 2)] "dirt" 2 (by decide)
    ⟨by decide, by decide⟩ (by decide) rfl).2.2.2.1 3 5 (by decide) (by decide)

/-- C2: for every non-sentinel entry whose source file does not exist, the
iteration appends exactly the diagnostic `"Missing: <name>"` and leaves the
atlas untouched; in a full run over a table satisfying the invariant the
entry's cell stays fully transparent, the diagnostic appears in the log, and
the run still completes and writes the output file. -/
theorem claim_C2_missing_file (fs : FS) (rs : Resample)
    (table : List (String × Nat)) (name : String) (index : Nat) (st : BuildState)
    (hmem : (name, index) ∈ table) (hinv : tableInvariant table)
    (hair : name ≠ "air") (hmiss : fs.fileExists (tilePath name) = false) :
    processEntry fs rs st (name, index) =
      { st with log := st.log ++ ["Missing: " ++ name] } ∧
    ("Missing: " ++ name) ∈ (buildTable fs rs table).log ∧
    (∀ dx dy, dx < TEXTURE_SIZE → dy < TEXTURE_SIZE →
      (buildTable fs rs table).atlas.px
          ((cellOf index).2 * TEXTURE_SIZE + dx) ((cellOf index).1 * TEXTURE_SIZE + dy) =
        transparentPx) ∧
    (runScript fs rs).savedAs = "kenney_voxel_atlas.png" := by
  refine ⟨?_, ?_, ?_, rfl⟩
  · simp only [processEntry]
    rw [if_neg hair, if_pos hmiss]
  · rw [buildTable_log]
    exact List.mem_bind.mpr ⟨(name, index), hmem, by simp [entryMsgs, hair, hmiss]⟩
  · intro dx dy hdx hdy
    apply buildTable_px_transparent
    intro e he hair' hex' hc
    by_cases hidx : e.2 = index
    · have he' : e = (name, index) :=
        List.inj_on_of_nodup_map hinv.1 he hmem (by simpa using hidx)
      rw [he'] at hex'
      exact absurd hex' (by simp [hmiss])
    · exact cell_disjoint hdx hdy (fun h => hidx h.symm) hc

/-- Witness for C2: the table `{"dirt": 2}` on a filesystem with no files:
the diagnostic is logged and the cell's corner pixel stays transparent. -/
theorem claim_C2_missing_file_witness :
    ("Missing: " ++ "dirt") ∈ (buildTable fsNone rsTop [("dirt", 2)]).log ∧
    (buildTable fsNone rsTop [("dirt", 2)]).atlas.px
        ((cellOf 2).2 * TEXTURE_SIZE + 0) ((cellOf 2).1 * TEXTURE_SIZE + 0) =
      transparentPx :=
  ⟨(claim_C2_missing_file fsNone rsTop [("dirt", 2)] "dirt" 2 ⟨blankAtlas, []⟩
      (by decide) ⟨by decide, by decide⟩ (by decide) rfl).2.1,
   (claim_C2_missing_file fsNone rsTop [("dirt", 2)] "dirt" 2 ⟨blankAtlas, []⟩
      (by decide) ⟨by decide, by decide⟩ (by decide) rfl).2.2.1 0 0 (by decide) (by decide)⟩

/-- C3: the reserved sentinel `'air'` is skipped before any filesystem
access: its iteration returns the state unchanged and is independent of the
filesystem and resampling kernel, it emits no diagnostic, and in the real
run its atlas cell (slot 0) is left fully transparent. -/
theorem claim_C3_air_skipped (fs fs' : FS) (rs rs' : Resample) (st : BuildState)
    (idx dx dy : Nat) (hdx : dx < TEXTURE_SIZE) (hdy : dy < TEXTURE_SIZE) :
    processEntry fs rs st ("air", idx) = st ∧
    processEntry fs rs st ("air", idx) = processEntry fs' rs' st ("air", idx) ∧
    entryMsgs fs ("air", idx) = [] ∧
    (runScript fs rs).atlas.px dx dy = transparentPx := by
  refine ⟨rfl, rfl, rfl, ?_⟩
  show (buildTable fs rs TEXTURE_MAP).atlas.px dx dy = transparentPx
  apply buildTable_px_transparent
  intro e he hair hex hc
  simp only [TEXTURE_SIZE] at hdx hdy
  have h0 : e.2 = 0 := by
    simp only [pixelInCell, cellOf, textures_per_row, TEXTURE_SIZE, ATLAS_SIZE] at hc
    omega
  have hA : ∀ e' ∈ TEXTURE_MAP, e'.2 = 0 → e'.1 = "air" := by decide
  exact hair (hA e he h0)

/-- Witness for C3 at pixel `(3, 5)` of the air cell. -/
theorem claim_C3_air_skipped_witness :
    processEntry fsAll rsTop ⟨blankAtlas, []⟩ ("air", 0) = ⟨blankAtlas, []⟩ ∧
    (runScript fsAll rsTop).atlas.px 3 5 = transparentPx :=
  ⟨(claim_C3_air_skipped fsAll fsNone rsTop rsTop ⟨blankAtlas, []⟩ 0 3 5
      (by decide) (by decide)).1,
   (claim_C3_air_skipped fsAll fsNone rsTop rsTop ⟨blankAtlas, []⟩ 0 3 5
      (by decide) (by decide)).2.2.2⟩

/-- C5: for any slot table satisfying the table invariant, the final atlas
image is independent of the order of the entries: every permutation of the
table produces the same output pixels, because placed tiles write disjoint
regions of the canvas. -/
theorem claim_C5_order_independent (fs : FS) (rs : Resample)
    (t₁ t₂ : List (String × Nat)) (hperm : t₁.Perm t₂) (hinv : tableInvariant t₁) :
    (buildTable fs rs t₁).atlas = (buildTable fs rs t₂).atlas := by
  rw [buildTable_atlas, buildTable_atlas]
  refine hperm.foldl_eq' ?_ blankAtlas
  intro a ha b hb z
  by_cases h : a.2 = b.2
  · have hab : a = b := List.inj_on_of_nodup_map hinv.1 ha hb h
    rw [hab]
  · exact atlasStep_comm fs rs a b h z

/-- Witness for C5: swapping the two entries of `{"dirt": 2, "sand": 5}`
leaves the atlas unchanged. -/
theorem claim_C5_order_independent_witness :
    (buildTable fsAll rsTop [("dirt", 2), ("sand", 5)]).atlas =
      (buildTable fsAll rsTop [("sand", 5), ("dirt", 2)]).atlas :=
  claim_C5_order_independent fsAll rsTop [("dirt", 2), ("sand", 5)]
    [("sand", 5), ("dirt", 2)] (by decide) ⟨by decide, by decide⟩

/-- C6: the build is a deterministic function of the filesystem state: two
runs over filesystems that agree on every path (same existence, same decoded
contents) produce identical build states and identical final images. -/
theorem claim_C6_deterministic (fs₁ fs₂ : FS) (rs : Resample)
    (table : List (String × Nat))
    (hex : ∀ p, fs₁.fileExists p = fs₂.fileExists p)
    (hrd : ∀ p, fs₁.read p = fs₂.read p) :
    buildTable fs₁ rs table = buildTable fs₂ rs table ∧
    runScript fs₁ rs = runScript fs₂ rs := by
  obtain ⟨e₁, r₁⟩ := fs₁
  obtain ⟨e₂, r₂⟩ := fs₂
  have he : e₁ = e₂ := funext hex
  have hr : r₁ = r₂ := funext hrd
  subst he; subst hr
  exact ⟨rfl, rfl⟩

/-- Witness for C6 on a concrete filesystem. -/
theorem claim_C6_deterministic_witness :
    runScript fsAll rsTop = runScript fsAll rsTop :=
  (claim_C6_deterministic fsAll fsAll rsTop TEXTURE_MAP
    (fun _ => rfl) (fun _ => rfl)).2

/-- C8: pasting overwrites its destination region entirely (source pixel
replaces destination, no blending) and changes no pixel outside it; and in a
full run, every atlas pixel outside the cells of successfully placed tiles
stays fully transparent. -/
theorem claim_C8_paste_frame (dst src : Img) (ox oy x y : Nat) (fs : FS)
    (rs : Resample) (table : List (String × Nat)) :
    ((ox ≤ x ∧ x < ox + src.width ∧ oy ≤ y ∧ y < oy + src.height) →
      (paste dst src ox oy).px x y = src.px (x - ox) (y - oy)) ∧
    (¬ (ox ≤ x ∧ x < ox + src.width ∧ oy ≤ y ∧ y < oy + src.height) →
      (paste dst src ox oy).px x y = dst.px x y) ∧
    ((∀ e ∈ table, e.1 ≠ "air" → fs.fileExists (tilePath e.1) = true →
        ¬ pixelInCell e.2 x y) →
      (buildTable fs rs table).atlas.px x y = transparentPx) := by
  refine ⟨?_, ?_, buildTable_px_transparent fs rs table x y⟩
  · intro h; simp only [paste]; rw [if_pos h]
  · intro h; simp only [paste]; rw [if_neg h]

/-- Witness for C8: an in-region paste pixel, and transparency of a pixel of
the real run on an empty filesystem. -/
theorem claim_C8_paste_frame_witness :
    (paste blankAtlas (fsAll.read "p") 0 0).px 3 5 = (fsAll.read "p").px 3 5 ∧
    (buildTable fsNone rsTop TEXTURE_MAP).atlas.px 3 5 = transparentPx :=
  ⟨(claim_C8_paste_frame blankAtlas (fsAll.read "p") 0 0 3 5 fsNone rsTop
      TEXTURE_MAP).1 (by decide),
   (claim_C8_paste_frame blankAtlas (fsAll.read "p") 0 0 3 5 fsNone rsTop
      TEXTURE_MAP).2.2 (fun e _ _ hex => absurd hex (by simp [fsNone]))⟩
